import Mathlib

/-!
Verification development for the LocalLens query-interpretation and
proximity-matching pipeline.  JavaScript strings are modelled as `List Char`
(ASCII case mapping via `Char.toLower`), JS numbers as `ℚ` (the claims under
study are independent of floating-point rounding of coordinates), and the
floating-point haversine `calculateDistance` is abstracted as an explicit
function parameter `dist : Location → Location → ℚ`, since every claim about
the matcher concerns the filtering/sorting/grouping structure and not the
numeric value of the great-circle formula.
-/

namespace LocalLens

abbrev Str := List Char

/-- JS `String.prototype.toLowerCase`, ASCII case mapping. -/
def toLowerStr (s : Str) : Str := s.map Char.toLower

/-- JS `\s` whitespace class (the code points relevant to query text). -/
def isWsChar (c : Char) : Bool :=
  c == ' ' || c == '\t' || c == '\n' || c == '\r' || c == '\x0b' || c == '\x0c' || c == '\u00A0'

/-- JS line terminators, which `.` in a regex never matches. -/
def isLineTerm (c : Char) : Bool :=
  c == '\n' || c == '\r' || c == '\u2028' || c == '\u2029'

/-- JS `String.prototype.trim`. -/
def trimStr (s : Str) : Str :=
  ((s.dropWhile isWsChar).reverse.dropWhile isWsChar).reverse

/-- `startsWithList pat s` : `pat` is an initial segment of `s`. -/
def startsWithList : Str → Str → Bool
  | [], _ => true
  | _ :: _, [] => false
  | a :: as, b :: bs => a == b && startsWithList as bs

/-- Case-insensitive variant used by the `i`-flagged regexes: the pattern
word is given lower-case and each subject character is lowered first. -/
def startsWithCI : Str → Str → Bool
  | [], _ => true
  | _ :: _, [] => false
  | a :: as, b :: bs => a == Char.toLower b && startsWithCI as bs

/-- JS `String.prototype.includes`: `containsSub pat s` holds when `pat`
occurs contiguously inside `s`. -/
def containsSub : Str → Str → Bool
  | pat, [] => pat.isEmpty
  | pat, c :: t => startsWithList pat (c :: t) || containsSub pat t

/-- JS `s.replace(<regex matching a final letter s>, <empty string>)`:
drop one trailing `'s'` if present. -/
def stripTrailingS (s : Str) : Str :=
  match s.getLast? with
  | some c => if c = 's' then s.dropLast else s
  | none => s

/-- JS `s.replace(<underscore string pattern>, <space>)`: a string-valued
first argument to `String.prototype.replace` replaces only the FIRST
occurrence. -/
def replaceFirstUnderscore : Str → Str
  | [] => []
  | c :: t => if c = '_' then ' ' :: t else c :: replaceFirstUnderscore t

/-- Replacing EVERY underscore with a space: what the spec sentence
describes ("replacing underscores in c with spaces"). -/
def replaceAllUnderscores (s : Str) : Str :=
  s.map (fun c => if c = '_' then ' ' else c)

/-- Keep the first occurrence of each element, dropping any element already
seen: the worker behind JS `[...new Set(xs)]`. -/
def dedupFirstAux (seen : List Str) : List Str → List Str
  | [] => []
  | x :: t => if seen.contains x then dedupFirstAux seen t else x :: dedupFirstAux (x :: seen) t

/-- JS `[...new Set(xs)]`: first-occurrence order, duplicates dropped. -/
def dedupFirst (l : List Str) : List Str := dedupFirstAux [] l

/-! ## Data model (src/types/poi.ts) -/

structure Location where
  latitude : ℚ
  longitude : ℚ
deriving DecidableEq

structure POI where
  id : Str
  name : Str
  type : Str
  location : Location
  address : Str
  attributes : Option (List Str)
deriving DecidableEq

/-! ## Geospatial / matcher utilities (src/utils/distance.ts)

`calculateDistance` is the haversine formula over IEEE doubles; it enters
every claim only through the comparisons `distance <= maxDistance` and the
sort comparator, so it is carried as the parameter `dist` below. -/

/-- One entry of `findPOIsWithNearby` output: the spread
`{ ...targetPOI, nearbyPOIs }`.  A nearby entry `{ ...nearbyPOI, distance }`
is the pair (POI, distance). -/
structure POIWithNearby where
  target : POI
  nearbyPOIs : List (POI × ℚ)
deriving DecidableEq

/-- The sort comparator `(a, b) => a.distance - b.distance` as the relation
"distance of `a` is at most distance of `b`". -/
def distLE (a b : POI × ℚ) : Prop := a.2 ≤ b.2

instance : DecidableRel distLE := fun a b => inferInstanceAs (Decidable (a.2 ≤ b.2))

instance : IsTotal (POI × ℚ) distLE := ⟨fun a b => le_total a.2 b.2⟩

instance : IsTrans (POI × ℚ) distLE := ⟨fun _ _ _ h1 h2 => le_trans h1 h2⟩

/-- The `.map(...).filter(...)` stage of `findPOIsWithNearby`: attach the
computed distance to every candidate, keep those within `maxDistance`. -/
def keptCandidates (dist : Location → Location → ℚ) (maxDistance : ℚ)
    (targetPOI : POI) (nearbyPOIs : List POI) : List (POI × ℚ) :=
  (nearbyPOIs.map (fun nearbyPOI => (nearbyPOI, dist targetPOI.location nearbyPOI.location))).filter
    (fun p => p.2 ≤ maxDistance)

/-- src/utils/distance.ts `findPOIsWithNearby`.  JS `Array.prototype.sort`
is a stable sort, modelled by `List.insertionSort`. -/
def findPOIsWithNearby (dist : Location → Location → ℚ)
    (targetPOIs nearbyPOIs : List POI) (maxDistance : ℚ) : List POIWithNearby :=
  (targetPOIs.map (fun targetPOI =>
      POIWithNearby.mk targetPOI
        (List.insertionSort distLE (keptCandidates dist maxDistance targetPOI nearbyPOIs)))).filter
    (fun poi => !poi.nearbyPOIs.isEmpty)

/-- The attribute comparison used both by `filterPOIsByAttributes` and the
inline filter in `processQuery`: case-insensitive mutual containment. -/
def attrMatches (reqAttr poiAttr : Str) : Bool :=
  containsSub (toLowerStr reqAttr) (toLowerStr poiAttr) ||
  containsSub (toLowerStr poiAttr) (toLowerStr reqAttr)

/-- src/utils/distance.ts `filterPOIsByAttributes`. -/
def filterPOIsByAttributes (pois : List POI) (requestedAttributes : List Str) : List POI :=
  if requestedAttributes.isEmpty then pois
  else
    pois.filter (fun poi =>
      match poi.attributes with
      | none => false
      | some attrs =>
          requestedAttributes.any (fun reqAttr => attrs.any (fun poiAttr => attrMatches reqAttr poiAttr)))

/-- The rounding applied by `convertProximityResultsToGrouped`
(src/services/queryService.ts, SQL mode): `Math.round(distance * 100) / 100`;
`Math.round` rounds half toward positive infinity, as does Mathlib `round`. -/
def round2 (x : ℚ) : ℚ := ((round (x * 100) : ℤ) : ℚ) / 100

/-! ## POI repository (src/services/dataService.ts)

The JSON fetched by `_loadPOIsInternal` is untrusted, so its fields are
modelled as optional: `none` for a `supportedTypes`/`pois` field stands for
"absent or not an array" (the code treats both identically), `none` for a
POI string field stands for "absent" and `none` for a coordinate stands for
"absent or not of JS type number". -/

structure RawLocation where
  latitude : Option ℚ
  longitude : Option ℚ
deriving DecidableEq

structure RawPOI where
  id : Option Str
  name : Option Str
  type : Option Str
  location : Option RawLocation
  address : Option Str
  attributes : Option (List Str)
deriving DecidableEq

structure RawData where
  supportedTypes : Option (List Str)
  pois : Option (List RawPOI)
deriving DecidableEq

/-- JS truthiness of a string field: present and non-empty
(`!poi.id || !poi.name || ...` rejects absent and empty strings alike). -/
def fieldTruthy : Option Str → Bool
  | none => false
  | some s => !s.isEmpty

/-- The per-POI validation performed by the `for (const poi of data.pois)`
loop of `_loadPOIsInternal`, fused with the (trivial) conversion of an
accepted raw POI to a typed one: `checkPOI p` is `some` exactly when the
loop does not throw on `p`, and the stored POI carries the raw fields
unchanged. -/
def checkPOI (poi : RawPOI) : Option POI :=
  if fieldTruthy poi.id && fieldTruthy poi.name && fieldTruthy poi.type && fieldTruthy poi.address then
    match poi.location with
    | none => none
    | some loc =>
        match loc.latitude, loc.longitude with
        | some la, some lo =>
            some (POI.mk (poi.id.getD []) (poi.name.getD []) (poi.type.getD [])
              (Location.mk la lo) (poi.address.getD []) poi.attributes)
        | _, _ => none
  else none

/-- The structural validation of `_loadPOIsInternal` as the code performs
it: `supportedTypes` present and an array (emptiness NOT checked), `pois`
present and an array, and every POI passing the per-POI checks. -/
def codeDataOk (data : RawData) : Bool :=
  match data.supportedTypes, data.pois with
  | some _, some rawPois => rawPois.all (fun p => (checkPOI p).isSome)
  | _, _ => false

/-- The structural contract as the spec states it, for comparison:
additionally requires `supportedTypes` to be non-empty. -/
def specDataContract (data : RawData) : Bool :=
  match data.supportedTypes, data.pois with
  | some types, some rawPois => !types.isEmpty && rawPois.all (fun p => (checkPOI p).isSome)
  | _, _ => false

inductive ErrCode where
  | dataFetchError
  | dataParseError
  | dataValidationError
deriving DecidableEq

/-- The settled outcome of the `fetch` + `response.json()` prelude of
`_loadPOIsInternal`: network/HTTP failure, JSON parse failure, or a parsed
payload. -/
inductive FetchOutcome where
  | fetchFail
  | parseFail
  | ok (data : RawData)
deriving DecidableEq

/-- `DataServiceImpl` private state.  `loadPromise` holds the identity of
the in-flight load promise, when one exists. -/
structure DSState where
  pois : List POI
  supportedTypes : List Str
  isLoaded : Bool
  loadPromise : Option Nat
deriving DecidableEq

/-- Settlement of a load: success, or the thrown `AppError`'s code. -/
inductive LoadResult where
  | ok
  | err (e : ErrCode)
deriving DecidableEq

/-- `_loadPOIsInternal`, as a transition on the service state given the
settled fetch outcome: returns the new state and either success or the
thrown `AppError`'s code.  Any throw resets `loadPromise` to `null`
(the `catch` block) and leaves `pois`/`supportedTypes`/`isLoaded` alone;
success assigns all three fields (and leaves `loadPromise` set). -/
def loadPOIsInternal (st : DSState) (fetched : FetchOutcome) : DSState × LoadResult :=
  match fetched with
  | .fetchFail => ({ st with loadPromise := none }, .err .dataFetchError)
  | .parseFail => ({ st with loadPromise := none }, .err .dataParseError)
  | .ok data =>
      match data.supportedTypes, data.pois with
      | some types, some rawPois =>
          if rawPois.all (fun p => (checkPOI p).isSome) then
            ({ st with supportedTypes := types
                       pois := rawPois.filterMap checkPOI
                       isLoaded := true }, .ok)
          else ({ st with loadPromise := none }, .err .dataValidationError)
      | _, _ => ({ st with loadPromise := none }, .err .dataValidationError)

/-- What a `loadPOIs()` call does before any awaiting: either return at
once (already loaded), join the in-flight promise, or start a new load
registered under a fresh promise identity. -/
inductive LoadCall where
  | alreadyLoaded
  | joinPending (p : Nat)
  | startNew (p : Nat)
deriving DecidableEq

/-- `loadPOIs`: the memoization guard. -/
def loadPOIs (st : DSState) (fresh : Nat) : DSState × LoadCall :=
  if st.isLoaded then (st, .alreadyLoaded)
  else
    match st.loadPromise with
    | some p => (st, .joinPending p)
    | none => ({ st with loadPromise := some fresh }, .startNew fresh)

/-- `queryPOIs`. -/
def queryPOIs (st : DSState) (types : List Str) : List POI :=
  if !st.isLoaded then []
  else if types.isEmpty then []
  else
    (fun normalizedTypes => st.pois.filter (fun poi => normalizedTypes.contains (toLowerStr poi.type)))
      (types.map toLowerStr)

/-- `getSupportedTypes` (returns a copy; in the pure model, the value). -/
def getSupportedTypes (st : DSState) : List Str := st.supportedTypes

/-! ## Intent extractor (src/services/lmService.ts)

The type-request regexes all have the shape `/w1.*w2.*w3/i`: literal words
separated by `.*`, unanchored.  `seqSearch true` implements exactly this:
the leading search position is unrestricted, the `.*` gaps may not cross a
line terminator, and the whole subject is pre-lowercased (the `i` flag). -/

def seqSearchWord (w : Str) (cont : Str → Bool) (allowNL : Bool) : Str → Bool
  | [] => startsWithList w [] && cont []
  | c :: t2 =>
      (startsWithList w (c :: t2) && cont ((c :: t2).drop w.length)) ||
      ((allowNL || !isLineTerm c) && seqSearchWord w cont allowNL t2)

/-- Search for the remaining words with line-terminator-free gaps. -/
def seqTail (ws : List Str) : Str → Bool :=
  ws.foldr (fun w cont => seqSearchWord w cont false) (fun _ => true)

/-- `pattern.test(subject)` for `/w1.*w2...*wn/`: the first word may start
anywhere, the later gaps may not cross a line terminator. -/
def seqSearch (ws : List Str) (s : Str) : Bool :=
  match ws with
  | [] => true
  | w :: rest => seqSearchWord w (seqTail rest) true s

/-- The eight `typeRequestPatterns` of `analyzeQuery`. -/
def typeRequestPatterns : List (List Str) :=
  [["what", "types", "supported"], ["list", "types"], ["show", "types"],
   ["valid", "types"], ["available", "types"], ["which", "types"],
   ["what", "can", "search"], ["what", "poi"]].map (List.map String.toList)

/-- `typeRequestPatterns.some(pattern => pattern.test(query))` (`i` flag:
the subject is pre-lowercased, the pattern words are lower-case). -/
def isTypeRequestQ (query : Str) : Bool :=
  typeRequestPatterns.any (fun ws => seqSearch ws (toLowerStr query))

/-- One token of the tail of a proximity regex (everything between the lazy
group `(.+?)` and the final greedy group `(.+)`): a mandatory whitespace run
`\s+` or a case-insensitive literal. -/
inductive PTok where
  | wsPlus
  | lit (w : Str)

/-- The final greedy group `(.+)`: one-or-more non-line-terminator
characters, captured maximally. -/
def tailGroup : Str → Option Str
  | [] => none
  | c :: t2 => if isLineTerm c then none else some (c :: t2.takeWhile (fun d => !isLineTerm d))

/-- One tail token in continuation form: a case-insensitive literal, or a
greedy backtracking `\s+` (longest whitespace run first, then shorter). -/
def tokStep (tok : PTok) (cont : Str → Option Str) : Str → Option Str :=
  match tok with
  | .lit w => fun t => if startsWithCI w t then cont (t.drop w.length) else none
  | .wsPlus => fun t =>
      (List.range (t.takeWhile isWsChar).length).reverse.findSome? (fun k => cont (t.drop (k + 1)))

/-- Backtracking matcher for a proximity-pattern tail followed by `(.+)`:
`matchTail toks t` returns the text captured by the final `(.+)` when
`toks` then `(.+)` match a prefix of `t`. -/
def matchTail (toks : List PTok) : Str → Option Str :=
  toks.foldr tokStep tailGroup

/-- Try the alternatives of one proximity pattern (the expansion of its
`(?:...|...)` group), in regex alternation order, at a fixed position. -/
def tryTails (tails : List (List PTok)) (t : Str) : Option Str :=
  tails.findSome? (fun tk => matchTail tk t)

/-- Match one proximity pattern at a fixed start position: the lazy group
`(.+?)` grows from one character upward (never across a line terminator);
the first length whose continuation matches wins, and the pair
(first capture, second capture) is returned. -/
def tryFrom (tails : List (List PTok)) (s : Str) : Option (Str × Str) :=
  (List.range (s.takeWhile (fun c => !isLineTerm c)).length).findSome?
    (fun k =>
      match tryTails tails (s.drop (k + 1)) with
      | some g2 => some (s.take (k + 1), g2)
      | none => none)

/-- `query.match(pattern)` for one proximity pattern: leftmost start
position wins. -/
def proximitySearch (tails : List (List PTok)) (s : Str) : Option (Str × Str) :=
  match s with
  | [] => none
  | c :: t =>
      match tryFrom tails (c :: t) with
      | some r => some r
      | none => proximitySearch tails t

/-- `/(.+?)\s+(?:with|having|that have)\s+nearby\s+(.+)/i`.  The three
alternatives begin with distinct letters, so expanding the alternation into
three tails tried per position is faithful to the engine's search order. -/
def pat1Tails : List (List PTok) :=
  [[.wsPlus, .lit "with".toList, .wsPlus, .lit "nearby".toList, .wsPlus],
   [.wsPlus, .lit "having".toList, .wsPlus, .lit "nearby".toList, .wsPlus],
   [.wsPlus, .lit "that have".toList, .wsPlus, .lit "nearby".toList, .wsPlus]]

/-- `/(.+?)\s+near\s+(.+)/i`. -/
def pat2Tails : List (List PTok) := [[.wsPlus, .lit "near".toList, .wsPlus]]

/-- `/(.+?)\s+close to\s+(.+)/i`. -/
def pat3Tails : List (List PTok) := [[.wsPlus, .lit "close to".toList, .wsPlus]]

/-- `/(.+?)\s+around\s+(.+)/i`. -/
def pat4Tails : List (List PTok) := [[.wsPlus, .lit "around".toList, .wsPlus]]

/-- The `for (const pattern of proximityPatterns)` loop: the first pattern
that matches wins (the loop breaks), yielding (match[1], match[2]). -/
def proximityFirstMatch (query : Str) : Option (Str × Str) :=
  match proximitySearch pat1Tails query with
  | some r => some r
  | none =>
      match proximitySearch pat2Tails query with
      | some r => some r
      | none =>
          match proximitySearch pat3Tails query with
          | some r => some r
          | none => proximitySearch pat4Tails query

/-- `generated.split(<comma or whitespace-and-whitespace regex>)`: scanning
split at each `,` or at each ` and ` separator (one whitespace character on
either side of the literal `and`, all five characters consumed). -/
def splitReAux (acc : Str) : Str → List Str
  | [] => [acc.reverse]
  | c :: 'a' :: 'n' :: 'd' :: d :: rest =>
      if c = ',' then acc.reverse :: splitReAux [] ('a' :: 'n' :: 'd' :: d :: rest)
      else if isWsChar c && isWsChar d then acc.reverse :: splitReAux [] rest
      else splitReAux (c :: acc) ('a' :: 'n' :: 'd' :: d :: rest)
  | c :: t =>
      if c = ',' then acc.reverse :: splitReAux [] t
      else splitReAux (c :: acc) t

/-- The post-processing `split → trim → toLowerCase → drop empties` applied
to each text the model generates. -/
def splitTokens (generated : Str) : List Str :=
  ((splitReAux [] generated).map (fun n => toLowerStr (trimStr n))).filter (fun n => !n.isEmpty)

/-- `extractNounsAndAdjectives`.  The language model is the external
text-analysis capability: `oracle` maps the lowercased segment to the raw
generated (noun text, adjective text), or to `Except.error` when a model
call throws — in which case the method's own `catch` yields two empty
lists.  When the service is not ready it returns empty lists at once. -/
def extractNounsAndAdjectives (ready : Bool) (oracle : Str → Except Unit (Str × Str))
    (query : Str) : List Str × List Str :=
  if !ready then ([], [])
  else
    match oracle (toLowerStr query) with
    | .error _ => ([], [])
    | .ok res => (splitTokens res.1, splitTokens res.2)

/-- The per-pair matching condition inside `matchNounsToTypes`. -/
def nounMatchesType (noun ty : Str) : Bool :=
  (fun typeNormalized =>
    noun == typeNormalized || noun == toLowerStr ty ||
      stripTrailingS noun == stripTrailingS typeNormalized ||
      containsSub typeNormalized noun || containsSub noun typeNormalized)
  (toLowerStr (replaceFirstUnderscore ty))

/-- `matchNounsToTypes`: for each noun push the first supported type it
matches, then deduplicate keeping first occurrences (`[...new Set(...)]`). -/
def matchNounsToTypes (nouns supportedTypes : List Str) : List Str :=
  dedupFirst (nouns.filterMap (fun noun => supportedTypes.find? (fun ty => nounMatchesType noun ty)))

/-- `commonVerbs` of the proximity branch of `analyzeQuery`. -/
def commonVerbs : List Str :=
  ["show", "find", "get", "list", "display", "search", "locate", "give", "tell"].map String.toList

/-- An adjective is dropped when it equals a query verb or starts with a
query verb followed by a space. -/
def isVerbish (adjLower : Str) : Bool :=
  commonVerbs.any (fun verb => adjLower == verb || startsWithList (verb ++ [' ']) adjLower)

/-- The "is this adjective itself a POI category" test shared by both
adjective filters (equality with the normalized or raw lowered type, or
equal singulars). -/
def isTypeTerm (supportedTypes : List Str) (adjLower : Str) : Bool :=
  supportedTypes.any (fun ty =>
    (fun typeNormalized =>
      adjLower == typeNormalized || adjLower == toLowerStr ty ||
        stripTrailingS adjLower == stripTrailingS typeNormalized)
    (toLowerStr (replaceFirstUnderscore ty)))

/-- The adjective filter of the proximity branch. -/
def proximityAttrFilter (supportedTypes : List Str) (adjectives : List Str) : List Str :=
  adjectives.filter (fun adj =>
    !isVerbish (toLowerStr adj) && !isTypeTerm supportedTypes (toLowerStr adj))

/-- `commonQueryWords` of the simple branch. -/
def commonQueryWords : List Str :=
  ["show", "find", "get", "list", "display", "search", "locate", "give", "tell",
   "me", "the", "a", "an"].map String.toList

/-- The adjective filter of the simple branch: drop exact common words,
drop any adjective CONTAINING a common word as a substring, drop category
terms. -/
def simpleAttrFilter (supportedTypes : List Str) (adjectives : List Str) : List Str :=
  adjectives.filter (fun adj =>
    !(commonQueryWords.contains (toLowerStr adj)) &&
    !(commonQueryWords.any (fun w => containsSub w (toLowerStr adj))) &&
    !isTypeTerm supportedTypes (toLowerStr adj))

/-- `ValidationResult` (src/types/lm.ts).  The JS optional fields are
`Option`s; an absent `attributes`/`nearbyAttributes` object is `none`, a
present one is `some` of its `cuisine` list. -/
structure ValidationResult where
  isValid : Bool
  types : List Str
  isTypeRequest : Bool
  isProximityQuery : Bool
  targetType : Option Str
  nearbyType : Option Str
  attributes : Option (List Str)
  nearbyAttributes : Option (List Str)
deriving DecidableEq

/-- JS truthiness of an optional string (`undefined` and the empty string
are falsy). -/
def optTruthy : Option Str → Bool
  | some s => !s.isEmpty
  | none => false

/-- The final (simple / default) extraction stage of `analyzeQuery`, run
over the whole query. -/
def simpleAnalyze (ready : Bool) (oracle : Str → Except Unit (Str × Str))
    (supportedTypes : List Str) (query : Str) : ValidationResult :=
  (fun e =>
    (fun types actualAdjectives =>
      ⟨!types.isEmpty, types, false, false, none, none,
        if actualAdjectives.isEmpty then none else some actualAdjectives, none⟩)
    (matchNounsToTypes e.1 supportedTypes) (simpleAttrFilter supportedTypes e.2))
  (extractNounsAndAdjectives ready oracle query)

/-- `analyzeQuery`: empty-query guard, type-request detection, proximity
detection (first matching pattern, both sides must resolve to a truthy
category), otherwise the simple path. -/
def analyzeQuery (ready : Bool) (oracle : Str → Except Unit (Str × Str))
    (supportedTypes : List Str) (query : Str) : ValidationResult :=
  if (trimStr query).isEmpty then ⟨false, [], false, false, none, none, none, none⟩
  else if isTypeRequestQ query then ⟨true, [], true, false, none, none, none, none⟩
  else
    match proximityFirstMatch query with
    | none => simpleAnalyze ready oracle supportedTypes query
    | some m =>
        (fun targetPart nearbyPart =>
          (fun targetType nearbyType =>
            if optTruthy targetType && optTruthy nearbyType then
              (fun targetAttributes nearbyAttributes =>
                ⟨true, [targetType.getD [], nearbyType.getD []], false, true,
                  targetType, nearbyType,
                  if targetAttributes.isEmpty then none else some targetAttributes,
                  if nearbyAttributes.isEmpty then none else some nearbyAttributes⟩)
              (proximityAttrFilter supportedTypes targetPart.2)
              (proximityAttrFilter supportedTypes nearbyPart.2)
            else simpleAnalyze ready oracle supportedTypes query)
          (matchNounsToTypes targetPart.1 supportedTypes).head?
          (matchNounsToTypes nearbyPart.1 supportedTypes).head?)
        (extractNounsAndAdjectives ready oracle m.1)
        (extractNounsAndAdjectives ready oracle m.2)

/-! ## Query orchestrator (src/services/queryService.ts, the
`findPOIsWithNearby`-based variant whose `processQuery` the spec describes).

External effects are parameters: `lmReady` is `lmService.isReady()`,
`timedOut` tells whether the `Promise.race` in `validateQueryWithTimeout`
settled with the 3000 ms timeout rejection rather than with the analysis
value, `fetched` is the settled outcome of the dataset fetch awaited by
`dataService.loadPOIs()` (shared between concurrent callers by the
memoization guard), and `dist` is the haversine as before. -/

def TIMEOUT_MS : Nat := 3000

def msgTimeout : Str := "Query processing timed out. Please try again.".toList

def msgInitializing : Str := "AI service is still initializing. Please wait a moment and try again.".toList

def msgEnterQuery : Str := "Please enter a query to search for POIs.".toList

def msgNoValidTypes : Str := "I couldn\x27t identify any valid POI types in your query.".toList

/-- `AppError.userMessage` for each data-loading error code
(src/utils/errors.ts `getUserFriendlyMessage` values used by the
data service). -/
def errUserMessage : ErrCode → Str
  | .dataFetchError => "Failed to load POI data. Please refresh the page.".toList
  | .dataParseError => "POI data is malformed. Please contact support.".toList
  | .dataValidationError => "POI data is malformed. Please contact support.".toList

/-- `appConfig.search.nearbyDistanceMiles` (src/config/app.config.ts). -/
def nearbyDistanceMiles : ℚ := 3 / 2

/-- JS number-to-string rendering of that constant. -/
def nearbyDistanceStr : Str := "1.5".toList

def locationCity : Str := "Richmond".toList

def locationDisplayName : Str := "Richmond, VA".toList

/-- The `mile${... === 1 ? : s}` pluralization. -/
def mileWord : Str := if nearbyDistanceMiles = 1 then "mile".toList else "miles".toList

/-- `exampleTypes[i] || fallback` with JS falsiness. -/
def orDefault (l : List Str) (i : Nat) (dflt : Str) : Str :=
  match l.get? i with
  | some s => if s.isEmpty then dflt else s
  | none => dflt

/-- `Array.prototype.join` with a separator. -/
def joinSep (sep : Str) : List Str → Str
  | [] => []
  | [x] => x
  | x :: y :: t => x ++ sep ++ joinSep sep (y :: t)

/-- `getDefaultSuggestions`. -/
def getDefaultSuggestions (st : DSState) : List Str :=
  (fun exampleTypes =>
    ["Try: \"Find ".toList ++ orDefault exampleTypes 0 "museums".toList ++ " in ".toList ++
       locationCity ++ "\"".toList,
     "Try: \"Show me ".toList ++ orDefault exampleTypes 1 "restaurants".toList ++ "\"".toList,
     "Try: \"Where are the ".toList ++ orDefault exampleTypes 2 "parks".toList ++ "?\"".toList,
     "Try: \"Parks with nearby restaurants\" (within ".toList ++ nearbyDistanceStr ++
       " ".toList ++ mileWord ++ ")".toList,
     "Try: \"Parks with nearby asian restaurants\" (specify cuisine/attributes for secondary POIs)".toList,
     "Try: \"Museums near coffee shops\" (finds primary POIs with nearby secondary POIs)".toList,
     "Or ask: \"What types are supported?\"".toList])
  (((getSupportedTypes st).take 3).map replaceFirstUnderscore)

/-- The ` ...attrs joined` fragment of the zero-groups message (empty when
the attribute list is absent or empty). -/
def attrText (o : Option (List Str)) : Str :=
  match o with
  | some attrs => if attrs.isEmpty then [] else ' ' :: joinSep ", ".toList attrs
  | none => []

/-- The zero-groups message of the proximity branch. -/
def noProximityMsg (targetDisplay nearbyDisplay tAttr nAttr : Str) : Str :=
  "No".toList ++ tAttr ++ " ".toList ++ targetDisplay ++ "s found with".toList ++ nAttr ++
    " ".toList ++ nearbyDisplay ++ "s within ".toList ++ nearbyDistanceStr ++ " ".toList ++
    mileWord ++ " in ".toList ++ locationDisplayName ++ ".".toList

/-- The suggestions offered with the zero-groups message. -/
def proximitySuggestions (targetDisplay nearbyDisplay : Str) : List Str :=
  ["Try: \"Find ".toList ++ targetDisplay ++ "s in ".toList ++ locationCity ++ "\"".toList,
   "Try: \"Show me ".toList ++ nearbyDisplay ++ "s\"".toList,
   "Try increasing the search distance or searching for different POI types or attributes".toList]

/-- `No <types joined with or> found in <displayName>.` -/
def noResultsMsg (types : List Str) : Str :=
  "No ".toList ++ joinSep " or ".toList types ++ " found in ".toList ++
    locationDisplayName ++ ".".toList

/-- `QueryResult` (src/types/services.ts): the tagged result union. -/
inductive QueryResult where
  | success (pois : List POI)
  | grouped (poisWithNearby : List POIWithNearby) (targetType nearbyType : Str) (maxDistance : ℚ)
  | suggestions (message : Str) (suggestionList : List Str)
  | typesList (types : List Str)
  | error (message : Str)
deriving DecidableEq

/-- `await dataService.loadPOIs()` as observed by `processQuery`: a no-op
when already loaded, otherwise the settling of the (possibly shared)
internal load with the given fetch outcome. -/
def runLoad (st : DSState) (fetched : FetchOutcome) : DSState × LoadResult :=
  if st.isLoaded then (st, .ok) else loadPOIsInternal st fetched

/-- The `if (validationResult.attributes?.cuisine && ...length > 0)` guard
around `filterPOIsByAttributes` in the proximity branch. -/
def applyOptAttrFilter (pois : List POI) (o : Option (List Str)) : List POI :=
  match o with
  | some attrs => if !attrs.isEmpty then filterPOIsByAttributes pois attrs else pois
  | none => pois

/-- The inline attribute filter of the regular branch: applied only when at
least one fetched POI actually carries attributes, otherwise skipped. -/
def simpleQueryAttrFilter (pois0 : List POI) (requestedAttributes : List Str) : List POI :=
  (fun poisWithAttributes =>
    if !poisWithAttributes.isEmpty then
      pois0.filter (fun poi =>
        match poi.attributes with
        | none => false
        | some attrs =>
            if attrs.isEmpty then false
            else requestedAttributes.any (fun r => attrs.any (fun pa => attrMatches r pa)))
    else pois0)
  (pois0.filter (fun poi => match poi.attributes with | some a => !a.isEmpty | none => false))

/-- `processQuery`.  The `catch` at its end maps the timeout rejection and
any `AppError` thrown by the load to an `error` result carrying the
error's user message. -/
def processQuery (dist : Location → Location → ℚ) (lmReady timedOut : Bool)
    (oracle : Str → Except Unit (Str × Str)) (st : DSState) (fetched : FetchOutcome)
    (query : Str) : QueryResult :=
  if (trimStr query).isEmpty then .suggestions msgEnterQuery (getDefaultSuggestions st)
  else if !lmReady then .error msgInitializing
  else if timedOut then .error msgTimeout
  else
    (fun validationResult =>
      if validationResult.isTypeRequest then .typesList (getSupportedTypes st)
      else if !validationResult.isValid || validationResult.types.isEmpty then
        .suggestions msgNoValidTypes (getDefaultSuggestions st)
      else
        match runLoad st fetched with
        | (_, .err e) => .error (errUserMessage e)
        | (st2, .ok) =>
            if validationResult.isProximityQuery && optTruthy validationResult.targetType &&
                optTruthy validationResult.nearbyType then
              (fun targetType nearbyType =>
                (fun poisWithNearby =>
                  if poisWithNearby.isEmpty then
                    .suggestions
                      (noProximityMsg (replaceFirstUnderscore targetType)
                        (replaceFirstUnderscore nearbyType)
                        (attrText validationResult.attributes)
                        (attrText validationResult.nearbyAttributes))
                      (proximitySuggestions (replaceFirstUnderscore targetType)
                        (replaceFirstUnderscore nearbyType))
                  else .grouped poisWithNearby targetType nearbyType nearbyDistanceMiles)
                (findPOIsWithNearby dist
                  (applyOptAttrFilter (queryPOIs st2 [targetType]) validationResult.attributes)
                  (applyOptAttrFilter (queryPOIs st2 [nearbyType]) validationResult.nearbyAttributes)
                  nearbyDistanceMiles))
              (validationResult.targetType.getD []) (validationResult.nearbyType.getD [])
            else
              (fun pois =>
                if pois.isEmpty then
                  .suggestions (noResultsMsg validationResult.types) (getDefaultSuggestions st2)
                else .success pois)
              (match validationResult.attributes with
               | some requestedAttributes =>
                   if requestedAttributes.isEmpty then queryPOIs st2 validationResult.types
                   else simpleQueryAttrFilter (queryPOIs st2 validationResult.types) requestedAttributes
               | none => queryPOIs st2 validationResult.types))
    (analyzeQuery lmReady oracle (getSupportedTypes st) query)

/-! ## Spec-side comparison definitions

These two definitions follow the WORDING of the specification (not the
code) and exist only to be compared against the code-side definitions
above. -/

/-- The category-matching rule as the spec words it: lower-case BOTH
strings, replace EVERY underscore of the category with a space, then test
equality (normalized or raw), equal stripped singulars, or mutual
containment. -/
def specTokenMatch (t c : Str) : Bool :=
  (fun t2 cNorm cRaw =>
    t2 == cNorm || t2 == cRaw || stripTrailingS t2 == stripTrailingS cNorm ||
      containsSub cNorm t2 || containsSub t2 cNorm)
  (toLowerStr t) (replaceAllUnderscores (toLowerStr c)) (toLowerStr c)

/-! ## Concrete fixtures for witnesses and counterexamples -/

def poiA : POI := ⟨"a".toList, "A".toList, "park".toList, ⟨0, 0⟩, "addr".toList, none⟩

def poiB : POI := ⟨"b".toList, "B".toList, "restaurant".toList, ⟨0, 1⟩, "addr".toList, none⟩

/-- A distance function whose value is not representable with 2 decimals. -/
def distThird : Location → Location → ℚ := fun _ _ => Rat.divInt 1 3

def groupAB : POIWithNearby := ⟨poiA, [(poiB, Rat.divInt 1 3)]⟩

def emptyState : DSState := ⟨[], [], false, none⟩

/-- A raw POI that passes every check `_loadPOIsInternal` performs yet has
latitude 200, far outside [-90, 90]. -/
def rawPOIOutOfRange : RawPOI :=
  ⟨some "p1".toList, some "P".toList, some "park".toList,
   some ⟨some 200, some 0⟩, some "addr".toList, none⟩

def dataOutOfRange : RawData := ⟨some ["park".toList], some [rawPOIOutOfRange]⟩

/-- The typed POI the repository stores for `rawPOIOutOfRange`. -/
def poiOutOfRange : POI :=
  ⟨"p1".toList, "P".toList, "park".toList, ⟨200, 0⟩, "addr".toList, none⟩

/-- A dataset with an EMPTY `supportedTypes` array: violates the spec's
structural contract but passes the code's checks. -/
def dataEmptyTypes : RawData := ⟨some [], some []⟩

def stPark : List Str := ["park".toList]

def stParkRestaurant : List Str := ["park".toList, "restaurant".toList]

/-- An analysis oracle that reports the noun "parks" for every segment. -/
def oracleParksOnly : Str → Except Unit (Str × Str) := fun _ => .ok ("parks".toList, [])

/-- An analysis oracle for the C2 counterexample: "restaurants" for the
right-hand segment, "parks" for anything else. -/
def oracleCx : Str → Except Unit (Str × Str) := fun s =>
  if s = "restaurants".toList then .ok ("restaurants".toList, []) else .ok ("parks".toList, [])

/-- An analysis oracle whose model calls always throw. -/
def oracleFails : Str → Except Unit (Str × Str) := fun _ => .error ()

def qCx : Str := "what parks can i search near restaurants".toList

def qCxLeft : Str := "what parks can i search".toList

def qCxRight : Str := "restaurants".toList

/-- A state in which a load has completed. -/
def loadedState : DSState := ⟨[poiA, poiB], stParkRestaurant, true, some 0⟩

/-- A state with a load in flight. -/
def pendingState : DSState := ⟨[], [], false, some 7⟩

/-- A raw POI whose latitude is absent or non-numeric. -/
def rawPOIBadLoc : RawPOI :=
  ⟨some "p2".toList, some "P2".toList, some "park".toList,
   some ⟨none, some 0⟩, some "addr".toList, none⟩

def dataBadLoc : RawData := ⟨some ["park".toList], some [rawPOIBadLoc]⟩

/-! ## Helper lemmas -/

theorem mem_dedupFirstAux {x : Str} {seen l : List Str} (h : x ∈ dedupFirstAux seen l) : x ∈ l := by
  induction l generalizing seen with
  | nil => simp [dedupFirstAux] at h
  | cons a t ih =>
      rw [dedupFirstAux] at h
      split at h
      · exact List.mem_cons_of_mem _ (ih h)
      · rcases List.mem_cons.mp h with h | h
        · exact h ▸ List.mem_cons_self _ _
        · exact List.mem_cons_of_mem _ (ih h)

theorem dedupFirstAux_not_mem_seen {x : Str} {seen l : List Str}
    (h : x ∈ dedupFirstAux seen l) : x ∉ seen := by
  induction l generalizing seen with
  | nil => simp [dedupFirstAux] at h
  | cons a t ih =>
      rw [dedupFirstAux] at h
      split at h
      · exact ih h
      · rcases List.mem_cons.mp h with rfl | h
        · intro hx
          rename_i hc
          exact hc (List.elem_iff.mpr hx)
        · intro hx
          exact ih h (List.mem_cons_of_mem _ hx)

theorem nodup_dedupFirstAux {seen l : List Str} : (dedupFirstAux seen l).Nodup := by
  induction l generalizing seen with
  | nil => exact List.nodup_nil
  | cons a t ih =>
      rw [dedupFirstAux]
      split
      · exact ih
      · exact List.nodup_cons.mpr
          ⟨fun h => dedupFirstAux_not_mem_seen h (List.mem_cons_self _ _), ih⟩

theorem nodup_dedupFirst (l : List Str) : (dedupFirst l).Nodup := nodup_dedupFirstAux

theorem matchNounsToTypes_subset {ns st : List Str} {x : Str}
    (h : x ∈ matchNounsToTypes ns st) : x ∈ st := by
  rcases List.mem_filterMap.mp (mem_dedupFirstAux h) with ⟨noun, _, hf⟩
  exact List.mem_of_find?_eq_some hf

theorem matchNounsToTypes_nil (st : List Str) : matchNounsToTypes [] st = [] := rfl

theorem isEmpty_insertionSort (l : List (POI × ℚ)) :
    (List.insertionSort distLE l).isEmpty = l.isEmpty := by
  rcases l with _ | ⟨a, t⟩
  · rfl
  · rcases h : List.insertionSort distLE (a :: t) with _ | ⟨b, bt⟩
    · have hp := List.perm_insertionSort distLE (a :: t)
      rw [h] at hp
      have h2 := hp.symm.eq_nil
      simp at h2
    · rfl

theorem mem_findPOIsWithNearby {dist : Location → Location → ℚ}
    {ts cs : List POI} {maxD : ℚ} {g : POIWithNearby}
    (hg : g ∈ findPOIsWithNearby dist ts cs maxD) :
    g.target ∈ ts
    ∧ g.nearbyPOIs = List.insertionSort distLE (keptCandidates dist maxD g.target cs)
    ∧ g.nearbyPOIs ≠ [] := by
  unfold findPOIsWithNearby at hg
  have h1 := List.mem_filter.mp hg
  rcases List.mem_map.mp h1.1 with ⟨t, ht, rfl⟩
  refine ⟨ht, rfl, ?_⟩
  intro hnil
  have h2 := h1.2
  rw [hnil] at h2
  simp at h2

theorem mem_keptCandidates {dist : Location → Location → ℚ} {maxD : ℚ}
    {t : POI} {cs : List POI} {p : POI × ℚ} (hp : p ∈ keptCandidates dist maxD t cs) :
    p.2 ≤ maxD ∧ p.1 ∈ cs ∧ p.2 = dist t.location p.1.location := by
  unfold keptCandidates at hp
  have h1 := List.mem_filter.mp hp
  rcases List.mem_map.mp h1.1 with ⟨c, hc, rfl⟩
  exact ⟨by simpa using h1.2, hc, rfl⟩

/-- Inserting an element into a list keeps, among the entries of any fixed
distance `d`, exactly the previous ones — with the new element in front
when its own distance is `d`.  (No sortedness needed: when the insertion
point passes an element `b`, `b.2 < a.2`, so `b` cannot tie with `a`.) -/
theorem filter_orderedInsert_eq (d : ℚ) (a : POI × ℚ) (l : List (POI × ℚ)) :
    (List.orderedInsert distLE a l).filter (fun p => p.2 == d) =
      if a.2 == d then a :: l.filter (fun p => p.2 == d)
      else l.filter (fun p => p.2 == d) := by
  induction l with
  | nil =>
      rw [List.orderedInsert_nil, List.filter_cons]
  | cons b t ih =>
      rw [List.orderedInsert]
      by_cases hab : distLE a b
      · rw [if_pos hab, List.filter_cons]
      · rw [if_neg hab, List.filter_cons, ih]
        by_cases had : a.2 = d
        · have hbd : ¬ b.2 = d := by
            intro hb
            exact hab (le_of_eq (had.trans hb.symm))
          simp only [List.filter_cons]
          simp [had, hbd]
        · simp only [List.filter_cons]
          simp [had]

/-- Stability of the sort: for every distance value `d`, the entries at
distance `d` appear in the sorted list exactly as they appeared in the
input. -/
theorem filter_insertionSort_eq (d : ℚ) (l : List (POI × ℚ)) :
    (List.insertionSort distLE l).filter (fun p => p.2 == d) =
      l.filter (fun p => p.2 == d) := by
  induction l with
  | nil => rfl
  | cons a t ih =>
      rw [List.insertionSort, filter_orderedInsert_eq, ih]
      rw [List.filter_cons]

/-! ## Claim theorems -/

/-- C1: every group returned by `findPOIsWithNearby` pairs one target POI
with a non-empty nearby list whose entries are candidates at distance at
most `maxDistance`, carrying the computed distance, sorted ascending by
distance with ties kept in stable input order (the entries at each fixed
distance appear exactly as in the filtered input); targets with an empty
kept-candidate list are dropped; and the groups follow the order of the
input `targetPOIs`. -/
theorem findPOIsWithNearby_spec (dist : Location → Location → ℚ)
    (ts cs : List POI) (maxD : ℚ) :
    ((findPOIsWithNearby dist ts cs maxD).map POIWithNearby.target =
        ts.filter (fun t => !(keptCandidates dist maxD t cs).isEmpty))
    ∧ ∀ g ∈ findPOIsWithNearby dist ts cs maxD,
        g.nearbyPOIs ≠ []
        ∧ List.Sorted distLE g.nearbyPOIs
        ∧ (∀ p ∈ g.nearbyPOIs,
            p.2 ≤ maxD ∧ p.1 ∈ cs ∧ p.2 = dist g.target.location p.1.location)
        ∧ (∀ d : ℚ, g.nearbyPOIs.filter (fun p => p.2 == d) =
            (keptCandidates dist maxD g.target cs).filter (fun p => p.2 == d)) := by
  constructor
  · unfold findPOIsWithNearby
    rw [List.filter_map, List.map_map]
    have hfil :
        ((fun poi : POIWithNearby => !poi.nearbyPOIs.isEmpty) ∘
          (fun targetPOI => POIWithNearby.mk targetPOI
            (List.insertionSort distLE (keptCandidates dist maxD targetPOI cs)))) =
        fun t => !(keptCandidates dist maxD t cs).isEmpty := by
      funext t
      simp [Function.comp, isEmpty_insertionSort]
    rw [hfil]
    have hmap :
        (POIWithNearby.target ∘
          (fun targetPOI => POIWithNearby.mk targetPOI
            (List.insertionSort distLE (keptCandidates dist maxD targetPOI cs)))) = id := by
      funext t
      rfl
    rw [hmap, List.map_id]
  · intro g hg
    obtain ⟨_, hnear, hne⟩ := mem_findPOIsWithNearby hg
    refine ⟨hne, ?_, ?_, ?_⟩
    · rw [hnear]
      exact List.sorted_insertionSort distLE _
    · intro p hp
      rw [hnear] at hp
      exact mem_keptCandidates ((List.mem_insertionSort distLE).mp hp)
    · intro d
      rw [hnear, filter_insertionSort_eq]

/-- Witness for C1 at a concrete call. -/
theorem findPOIsWithNearby_spec_witness :
    groupAB ∈ findPOIsWithNearby distThird [poiA] [poiB] 1
    ∧ (groupAB.nearbyPOIs ≠ []
        ∧ List.Sorted distLE groupAB.nearbyPOIs
        ∧ (∀ p ∈ groupAB.nearbyPOIs,
            p.2 ≤ 1 ∧ p.1 ∈ [poiB] ∧ p.2 = distThird groupAB.target.location p.1.location)
        ∧ (∀ d : ℚ, groupAB.nearbyPOIs.filter (fun p => p.2 == d) =
            (keptCandidates distThird 1 groupAB.target [poiB]).filter (fun p => p.2 == d))) :=
  ⟨by decide, (findPOIsWithNearby_spec distThird [poiA] [poiB] 1).2 groupAB (by decide)⟩

/-- C4 counterexample: the matcher output carries the raw computed distance
(here 1/3), which is NOT equal to its 2-decimal rounding — so matcher pairs
do not carry values rounded to 2 decimal places.  (Rounding happens only in
the SQL-path converter `convertProximityResultsToGrouped`, whose rounding
step is the `round2` used here.) -/
theorem findPOIsWithNearby_not_rounded :
    findPOIsWithNearby distThird [poiA] [poiB] 1 = [groupAB]
    ∧ groupAB.nearbyPOIs = [(poiB, Rat.divInt 1 3)]
    ∧ round2 (Rat.divInt 1 3) ≠ Rat.divInt 1 3 := by
  refine ⟨by decide, by decide, ?_⟩
  rw [Rat.divInt_eq_div, round2]
  norm_num [round_eq]

/-- C4 amended: every (POI, distance) pair in the matcher's output carries
the EXACT distance computed between the group's target and that POI,
unrounded. -/
theorem findPOIsWithNearby_distance_exact (dist : Location → Location → ℚ)
    (ts cs : List POI) (maxD : ℚ) :
    ∀ g ∈ findPOIsWithNearby dist ts cs maxD, ∀ p ∈ g.nearbyPOIs,
      p.2 = dist g.target.location p.1.location := by
  intro g hg p hp
  obtain ⟨_, hnear, _⟩ := mem_findPOIsWithNearby hg
  rw [hnear] at hp
  exact (mem_keptCandidates ((List.mem_insertionSort distLE).mp hp)).2.2

/-- Witness for the amended C4 at a concrete call. -/
theorem findPOIsWithNearby_distance_exact_witness :
    (poiB, Rat.divInt 1 3).2 = distThird groupAB.target.location (poiB, Rat.divInt 1 3).1.location :=
  findPOIsWithNearby_distance_exact distThird [poiA] [poiB] 1 groupAB (by decide)
    (poiB, Rat.divInt 1 3) (by decide)

/-- `contains` over a lowered list, reformulated as `any`. -/
theorem contains_map_toLowerStr (types : List Str) (x : Str) :
    (types.map toLowerStr).contains x = types.any (fun t => x == toLowerStr t) := by
  rw [List.contains_eq_any_beq, List.any_map]
  rfl

/-- C9: `queryPOIs` returns the empty list before a load completes and for
an empty `types` argument; otherwise it returns exactly the stored POIs
whose type equals, case-insensitively, some requested type — by `filter`,
hence in dataset order. -/
theorem queryPOIs_spec (st : DSState) (types : List Str) :
    (st.isLoaded = false → queryPOIs st types = [])
    ∧ (types = [] → queryPOIs st types = [])
    ∧ (st.isLoaded = true → types ≠ [] →
        queryPOIs st types =
          st.pois.filter (fun poi => types.any (fun t => toLowerStr poi.type == toLowerStr t))) := by
  refine ⟨?_, ?_, ?_⟩
  · intro h
    simp [queryPOIs, h]
  · intro h
    subst h
    rcases hL : st.isLoaded <;> simp [queryPOIs, hL]
  · intro h1 h2
    rcases types with _ | ⟨a, rest⟩
    · exact absurd rfl h2
    · rw [queryPOIs, h1]
      simp only [Bool.not_true, Bool.false_eq_true, if_false, List.isEmpty_cons]
      exact List.filter_congr
        (fun poi _ => contains_map_toLowerStr (a :: rest) (toLowerStr poi.type))

/-- Witness for C9 at a concrete state and type list. -/
theorem queryPOIs_spec_witness :
    queryPOIs loadedState ["PARK".toList] =
      loadedState.pois.filter
        (fun poi => ["PARK".toList].any (fun t => toLowerStr poi.type == toLowerStr t)) :=
  (queryPOIs_spec loadedState ["PARK".toList]).2.2 (by decide) (by decide)

/-- C8: the load guard is memoized with single-flight semantics: a
completed load makes `loadPOIs` a no-op; a successful internal load marks
the state loaded; while a load is in flight every call returns the same
pending promise without starting a new fetch; and a failed internal load
clears the memoization slot, so the next call starts a fresh load. -/
theorem loadPOIs_memoization (st : DSState) (f p : Nat) (o : FetchOutcome) (e : ErrCode) :
    (st.isLoaded = true → loadPOIs st f = (st, .alreadyLoaded))
    ∧ ((loadPOIsInternal st o).2 = .ok → (loadPOIsInternal st o).1.isLoaded = true)
    ∧ (st.isLoaded = false → st.loadPromise = some p → loadPOIs st f = (st, .joinPending p))
    ∧ ((loadPOIsInternal st o).2 = .err e →
        (loadPOIsInternal st o).1.loadPromise = none
        ∧ (loadPOIsInternal st o).1.isLoaded = st.isLoaded
        ∧ (st.isLoaded = false →
            loadPOIs (loadPOIsInternal st o).1 f =
              ({ (loadPOIsInternal st o).1 with loadPromise := some f }, .startNew f))) := by
  refine ⟨?_, ?_, ?_, ?_⟩
  · intro h
    simp [loadPOIs, h]
  · intro h
    rcases o with _ | _ | data
    · simp [loadPOIsInternal] at h
    · simp [loadPOIsInternal] at h
    · rcases data with ⟨ts, ps⟩
      rcases ts with _ | ts <;> rcases ps with _ | ps
      · simp [loadPOIsInternal] at h
      · simp [loadPOIsInternal] at h
      · simp [loadPOIsInternal] at h
      · simp only [loadPOIsInternal] at h ⊢
        split at h <;> rename_i hc
        · rw [if_pos hc]
        · simp at h
  · intro h1 h2
    simp [loadPOIs, h1, h2]
  · intro h
    have hstate : (loadPOIsInternal st o).1.loadPromise = none ∧
        (loadPOIsInternal st o).1.isLoaded = st.isLoaded := by
      rcases o with _ | _ | data
      · simp [loadPOIsInternal]
      · simp [loadPOIsInternal]
      · rcases data with ⟨ts, ps⟩
        rcases ts with _ | ts <;> rcases ps with _ | ps
        · simp [loadPOIsInternal]
        · simp [loadPOIsInternal]
        · simp [loadPOIsInternal]
        · simp only [loadPOIsInternal] at h ⊢
          split at h <;> rename_i hc
          · simp at h
          · rw [if_neg hc]
            exact ⟨rfl, rfl⟩
    refine ⟨hstate.1, hstate.2, ?_⟩
    intro hnl
    have hl : (loadPOIsInternal st o).1.isLoaded = false := hstate.2.trans hnl
    rw [loadPOIs, hl, hstate.1]
    simp [hl]

/-- Witness for C8 at a concrete state and outcomes. -/
theorem loadPOIs_memoization_witness :
    loadPOIs pendingState 9 = (pendingState, .joinPending 7)
    ∧ (loadPOIsInternal pendingState .fetchFail).1.loadPromise = none :=
  ⟨(loadPOIs_memoization pendingState 9 7 .fetchFail .dataFetchError).2.2.1 (by decide) (by decide),
   ((loadPOIs_memoization pendingState 9 7 .fetchFail .dataFetchError).2.2.2 (by decide)).1⟩

/-- C5 counterexample: `_loadPOIsInternal` accepts a POI with latitude 200
(outside [-90, 90]) — the load succeeds and the POI is stored, so
out-of-range coordinates are NOT rejected at load time. -/
theorem load_accepts_out_of_range :
    (loadPOIsInternal emptyState (.ok dataOutOfRange)).2 = .ok
    ∧ (loadPOIsInternal emptyState (.ok dataOutOfRange)).1.pois = [poiOutOfRange]
    ∧ (loadPOIsInternal emptyState (.ok dataOutOfRange)).1.isLoaded = true
    ∧ ¬ ((-90 : ℚ) ≤ poiOutOfRange.location.latitude ∧ poiOutOfRange.location.latitude ≤ 90) := by
  decide

/-- C5 amended: what the validation DOES reject about coordinates is a
missing location object or a missing/non-numeric latitude or longitude —
then the load fails with a validation error and nothing is stored. -/
theorem load_rejects_nonnumeric_location (st : DSState) (data : RawData)
    (rawPois : List RawPOI) (poi : RawPOI)
    (hpois : data.pois = some rawPois) (hmem : poi ∈ rawPois)
    (hbad : poi.location = none ∨
      ∃ loc, poi.location = some loc ∧ (loc.latitude = none ∨ loc.longitude = none)) :
    (loadPOIsInternal st (.ok data)).2 = .err .dataValidationError
    ∧ (loadPOIsInternal st (.ok data)).1.pois = st.pois
    ∧ (loadPOIsInternal st (.ok data)).1.supportedTypes = st.supportedTypes
    ∧ (loadPOIsInternal st (.ok data)).1.isLoaded = st.isLoaded := by
  have hcheck : checkPOI poi = none := by
    rcases hbad with hb | ⟨loc, hloc, hb⟩
    · simp [checkPOI, hb]
    · rcases hb with hb | hb
      · simp [checkPOI, hloc, hb]
      · rcases hlat : loc.latitude with _ | la
        · simp [checkPOI, hloc, hlat]
        · simp [checkPOI, hloc, hlat, hb]
  have hall : rawPois.all (fun q => (checkPOI q).isSome) = false :=
    List.all_eq_false.mpr ⟨poi, hmem, by simp [hcheck]⟩
  rcases data with ⟨ts, ps⟩
  cases hpois
  rcases ts with _ | ts
  · simp [loadPOIsInternal]
  · simp [loadPOIsInternal, hall]

/-- Witness for the amended C5 at a concrete dataset. -/
theorem load_rejects_nonnumeric_location_witness :
    (loadPOIsInternal emptyState (.ok dataBadLoc)).2 = .err .dataValidationError
    ∧ (loadPOIsInternal emptyState (.ok dataBadLoc)).1.pois = emptyState.pois
    ∧ (loadPOIsInternal emptyState (.ok dataBadLoc)).1.supportedTypes = emptyState.supportedTypes
    ∧ (loadPOIsInternal emptyState (.ok dataBadLoc)).1.isLoaded = emptyState.isLoaded :=
  load_rejects_nonnumeric_location emptyState dataBadLoc [rawPOIBadLoc] rawPOIBadLoc rfl
    (by decide) (Or.inr ⟨⟨none, some 0⟩, rfl, Or.inl rfl⟩)

/-- C6 counterexample: a dataset with an EMPTY `supportedTypes` array
violates the spec's structural contract (non-empty required) yet loads
without a validation failure — the claimed equivalence fails. -/
theorem load_accepts_empty_supportedTypes :
    ¬ (((loadPOIsInternal emptyState (.ok dataEmptyTypes)).2 =
          LoadResult.err ErrCode.dataValidationError)
        ↔ specDataContract dataEmptyTypes = false) := by
  decide

/-- C6 amended: on a fetched-and-parsed dataset, the load raises a
data-validation failure exactly when the structure check the code performs
fails (`supportedTypes` present and a list — possibly empty —, `pois`
present and a list, every POI passing the per-POI field checks), and on
such a failure the stored `pois`, `supportedTypes` and loaded flag are
unchanged: nothing is partially loaded. -/
theorem load_validation_characterization (st : DSState) (data : RawData) :
    ((loadPOIsInternal st (.ok data)).2 = .err .dataValidationError ↔ codeDataOk data = false)
    ∧ (codeDataOk data = false →
        (loadPOIsInternal st (.ok data)).1.pois = st.pois
        ∧ (loadPOIsInternal st (.ok data)).1.supportedTypes = st.supportedTypes
        ∧ (loadPOIsInternal st (.ok data)).1.isLoaded = st.isLoaded) := by
  rcases data with ⟨ts, ps⟩
  rcases ts with _ | ts <;> rcases ps with _ | ps
  · simp [loadPOIsInternal, codeDataOk]
  · simp [loadPOIsInternal, codeDataOk]
  · simp [loadPOIsInternal, codeDataOk]
  · rcases hall : ps.all (fun p => (checkPOI p).isSome) with _ | _
    · simp [loadPOIsInternal, codeDataOk, hall]
    · simp [loadPOIsInternal, codeDataOk, hall]

/-- Witness for the amended C6 at a concrete dataset. -/
theorem load_validation_characterization_witness :
    ((loadPOIsInternal emptyState (.ok dataBadLoc)).2 = .err .dataValidationError
      ↔ codeDataOk dataBadLoc = false)
    ∧ (loadPOIsInternal emptyState (.ok dataBadLoc)).1.isLoaded = emptyState.isLoaded :=
  ⟨(load_validation_characterization emptyState dataBadLoc).1,
   ((load_validation_characterization emptyState dataBadLoc).2 (by decide)).2.2⟩

theorem lower_fixed_cons {x : Char} {t : Str} (h : toLowerStr (x :: t) = x :: t) :
    Char.toLower x = x ∧ toLowerStr t = t := by
  rw [toLowerStr, List.map_cons] at h
  injection h with h1 h2
  exact ⟨h1, h2⟩

theorem toLowerStr_replaceFirstUnderscore {c : Str} (h : toLowerStr c = c) :
    toLowerStr (replaceFirstUnderscore c) = replaceFirstUnderscore c := by
  induction c with
  | nil => rfl
  | cons x t ih =>
      obtain ⟨hx, ht⟩ := lower_fixed_cons h
      rw [replaceFirstUnderscore]
      by_cases hu : x = '_'
      · rw [if_pos hu, toLowerStr, List.map_cons]
        rw [show Char.toLower ' ' = ' ' from by decide]
        exact congrArg _ ht
      · rw [if_neg hu, toLowerStr, List.map_cons, hx]
        exact congrArg _ (ih ht)

theorem count_zero_replaceAll {c : Str} (h : c.count '_' = 0) :
    replaceAllUnderscores c = c := by
  induction c with
  | nil => rfl
  | cons x t ih =>
      by_cases hx : x = '_'
      · subst hx
        simp [List.count_cons] at h
      · have ht : t.count '_' = 0 := by
          simpa [List.count_cons, hx] using h
        rw [replaceAllUnderscores, List.map_cons, if_neg hx]
        exact congrArg _ (ih ht)

theorem replaceAll_eq_replaceFirst {c : Str} (h : c.count '_' ≤ 1) :
    replaceAllUnderscores c = replaceFirstUnderscore c := by
  induction c with
  | nil => rfl
  | cons x t ih =>
      by_cases hx : x = '_'
      · subst hx
        have ht : t.count '_' = 0 := by
          simp [List.count_cons] at h
          omega
        rw [replaceAllUnderscores, List.map_cons, if_pos rfl,
          replaceFirstUnderscore, if_pos rfl]
        exact congrArg _ (count_zero_replaceAll ht)
      · have ht : t.count '_' ≤ 1 := by
          simp only [List.count_cons] at h
          omega
        rw [replaceAllUnderscores, List.map_cons, if_neg hx,
          replaceFirstUnderscore, if_neg hx]
        exact congrArg _ (ih ht)

/-- C3 counterexample: the claim's rule lower-cases BOTH strings, but the
code never lowers the token, so the upper-case token "PARK" matches
category "park" under the spec's rule and not under the code's. -/
theorem nounMatchesType_case_mismatch :
    nounMatchesType "PARK".toList "park".toList = false
    ∧ specTokenMatch "PARK".toList "park".toList = true := by
  decide

/-- C3 amended: for an already-lower-case token and an already-lower-case
category containing at most one underscore (the code replaces only the
FIRST underscore), the code's matching condition coincides with the spec's
rule. -/
theorem nounMatchesType_matches_spec_rule (t c : Str)
    (ht : toLowerStr t = t) (hc : toLowerStr c = c) (hu : c.count '_' ≤ 1) :
    nounMatchesType t c = specTokenMatch t c := by
  have h1 : toLowerStr (replaceFirstUnderscore c) = replaceFirstUnderscore c :=
    toLowerStr_replaceFirstUnderscore hc
  have h2 : replaceAllUnderscores (toLowerStr c) = replaceFirstUnderscore c := by
    rw [hc]
    exact replaceAll_eq_replaceFirst hu
  simp only [nounMatchesType, specTokenMatch]
  rw [h1, h2, ht, hc]

/-- Witness for the amended C3 at concrete strings. -/
theorem nounMatchesType_matches_spec_rule_witness :
    nounMatchesType "parks".toList "coffee_shop".toList =
      specTokenMatch "parks".toList "coffee_shop".toList :=
  nounMatchesType_matches_spec_rule "parks".toList "coffee_shop".toList
    (by decide) (by decide) (by decide)

theorem simpleAnalyze_isProximityQuery (ready : Bool) (oracle : Str → Except Unit (Str × Str))
    (st : List Str) (q : Str) : (simpleAnalyze ready oracle st q).isProximityQuery = false := rfl

theorem list_isEmpty_false_of_ne_nil {l : List Char} (h : l ≠ []) : l.isEmpty = false := by
  cases l with
  | nil => exact absurd rfl h
  | cons a t => rfl

/-- C2 amended: for a non-blank query that is NOT a type-list request,
whose text matches one of the proximity patterns with first capture `m1`
and second capture `m2`, and over a category registry of non-empty names:
the extractor emits a proximity intent exactly when both segments resolve
to a known category; on success the first matching category of each side
becomes `targetType` / `nearbyType`; on failure the result is exactly the
simple/default extraction of the full query. -/
theorem analyzeQuery_proximity_iff (ready : Bool) (oracle : Str → Except Unit (Str × Str))
    (supportedTypes : List Str) (query m1 m2 : Str)
    (hblank : (trimStr query).isEmpty = false)
    (htr : isTypeRequestQ query = false)
    (hm : proximityFirstMatch query = some (m1, m2))
    (hst : ∀ ty ∈ supportedTypes, ty ≠ []) :
    ((analyzeQuery ready oracle supportedTypes query).isProximityQuery = true ↔
      (matchNounsToTypes (extractNounsAndAdjectives ready oracle m1).1 supportedTypes ≠ []
        ∧ matchNounsToTypes (extractNounsAndAdjectives ready oracle m2).1 supportedTypes ≠ []))
    ∧ ((analyzeQuery ready oracle supportedTypes query).isProximityQuery = true →
        (analyzeQuery ready oracle supportedTypes query).targetType =
          (matchNounsToTypes (extractNounsAndAdjectives ready oracle m1).1 supportedTypes).head?
        ∧ (analyzeQuery ready oracle supportedTypes query).nearbyType =
          (matchNounsToTypes (extractNounsAndAdjectives ready oracle m2).1 supportedTypes).head?)
    ∧ ((analyzeQuery ready oracle supportedTypes query).isProximityQuery = false →
        analyzeQuery ready oracle supportedTypes query =
          simpleAnalyze ready oracle supportedTypes query) := by
  simp only [analyzeQuery, hblank, htr, hm, Bool.false_eq_true, if_false]
  rcases hLc : matchNounsToTypes (extractNounsAndAdjectives ready oracle m1).1 supportedTypes with
    _ | ⟨tt, L2⟩
  · simp [optTruthy, simpleAnalyze_isProximityQuery]
  · have htt : tt ∈ supportedTypes :=
      matchNounsToTypes_subset (hLc ▸ List.mem_cons_self tt L2)
    have httne : tt.isEmpty = false := list_isEmpty_false_of_ne_nil (hst tt htt)
    rcases hRc : matchNounsToTypes (extractNounsAndAdjectives ready oracle m2).1 supportedTypes with
      _ | ⟨nt, R2⟩
    · simp [optTruthy, simpleAnalyze_isProximityQuery]
    · have hnt : nt ∈ supportedTypes :=
        matchNounsToTypes_subset (hRc ▸ List.mem_cons_self nt R2)
      have hntne : nt.isEmpty = false := list_isEmpty_false_of_ne_nil (hst nt hnt)
      simp [optTruthy, httne, hntne]

/-- Witness for the amended C2 at a concrete query and oracle. -/
theorem analyzeQuery_proximity_iff_witness :
    (analyzeQuery true oracleParksOnly stParkRestaurant
      "parks near restaurants".toList).isProximityQuery = true :=
  ((analyzeQuery_proximity_iff true oracleParksOnly stParkRestaurant
      "parks near restaurants".toList "parks".toList "restaurants".toList
      (by decide) (by decide) (by decide) (by decide)).1).mpr ⟨by decide, by decide⟩

/-- C2 counterexample: the query below matches the type-request pattern
`what...can...search` AND the `near` proximity pattern, and BOTH proximity
segments resolve to known categories — yet the extractor returns a
type-list request, not a proximity intent: type-request detection runs
first, which the claim does not allow for. -/
theorem analyzeQuery_typeRequest_precedence :
    proximityFirstMatch qCx = some (qCxLeft, qCxRight)
    ∧ matchNounsToTypes (extractNounsAndAdjectives true oracleCx qCxLeft).1 stParkRestaurant ≠ []
    ∧ matchNounsToTypes (extractNounsAndAdjectives true oracleCx qCxRight).1 stParkRestaurant ≠ []
    ∧ (analyzeQuery true oracleCx stParkRestaurant qCx).isProximityQuery = false
    ∧ (analyzeQuery true oracleCx stParkRestaurant qCx).isTypeRequest = true := by
  decide

theorem simpleAnalyze_types_known (ready : Bool) (oracle : Str → Except Unit (Str × Str))
    (st : List Str) (q : Str) :
    (∀ t ∈ (simpleAnalyze ready oracle st q).types, t ∈ st)
    ∧ (∀ t, (simpleAnalyze ready oracle st q).targetType = some t → t ∈ st)
    ∧ (∀ t, (simpleAnalyze ready oracle st q).nearbyType = some t → t ∈ st)
    ∧ ((simpleAnalyze ready oracle st q).isProximityQuery = false →
        (simpleAnalyze ready oracle st q).types.Nodup)
    ∧ ((simpleAnalyze ready oracle st q).isProximityQuery = true →
        ∃ tt nt, (simpleAnalyze ready oracle st q).targetType = some tt
          ∧ (simpleAnalyze ready oracle st q).nearbyType = some nt
          ∧ (simpleAnalyze ready oracle st q).types = [tt, nt]) := by
  refine ⟨?_, ?_, ?_, ?_, ?_⟩
  · intro t htm
    exact matchNounsToTypes_subset htm
  · intro t h
    simp [simpleAnalyze] at h
  · intro t h
    simp [simpleAnalyze] at h
  · intro _
    exact nodup_dedupFirst _
  · intro h
    simp [simpleAnalyze] at h

/-- C10 amended: every intent the extractor returns references only known
categories — each element of `types`, and `targetType`/`nearbyType` when
present, belongs to `supportedTypes`; non-proximity intents carry a
duplicate-free `types` list; a proximity intent's `types` is exactly
`[targetType, nearbyType]`, which repeats a category when both sides
resolve to the same one. -/
theorem analyzeQuery_types_known (ready : Bool) (oracle : Str → Except Unit (Str × Str))
    (supportedTypes : List Str) (query : Str) :
    (∀ t ∈ (analyzeQuery ready oracle supportedTypes query).types, t ∈ supportedTypes)
    ∧ (∀ t, (analyzeQuery ready oracle supportedTypes query).targetType = some t →
        t ∈ supportedTypes)
    ∧ (∀ t, (analyzeQuery ready oracle supportedTypes query).nearbyType = some t →
        t ∈ supportedTypes)
    ∧ ((analyzeQuery ready oracle supportedTypes query).isProximityQuery = false →
        (analyzeQuery ready oracle supportedTypes query).types.Nodup)
    ∧ ((analyzeQuery ready oracle supportedTypes query).isProximityQuery = true →
        ∃ tt nt, (analyzeQuery ready oracle supportedTypes query).targetType = some tt
          ∧ (analyzeQuery ready oracle supportedTypes query).nearbyType = some nt
          ∧ (analyzeQuery ready oracle supportedTypes query).types = [tt, nt]) := by
  rcases hb : (trimStr query).isEmpty with _ | _
  · rcases htr : isTypeRequestQ query with _ | _
    · rcases hm : proximityFirstMatch query with _ | ⟨m1, m2⟩
      · have hred : analyzeQuery ready oracle supportedTypes query =
            simpleAnalyze ready oracle supportedTypes query := by
          simp [analyzeQuery, hb, htr, hm]
        rw [hred]
        exact simpleAnalyze_types_known ready oracle supportedTypes query
      · rcases hLc : matchNounsToTypes (extractNounsAndAdjectives ready oracle m1).1
            supportedTypes with _ | ⟨tt, L2⟩
        · have hred : analyzeQuery ready oracle supportedTypes query =
              simpleAnalyze ready oracle supportedTypes query := by
            simp [analyzeQuery, hb, htr, hm, hLc, optTruthy]
          rw [hred]
          exact simpleAnalyze_types_known ready oracle supportedTypes query
        · have htt : tt ∈ supportedTypes :=
            matchNounsToTypes_subset (hLc ▸ List.mem_cons_self tt L2)
          rcases hRc : matchNounsToTypes (extractNounsAndAdjectives ready oracle m2).1
              supportedTypes with _ | ⟨nt, R2⟩
          · have hred : analyzeQuery ready oracle supportedTypes query =
                simpleAnalyze ready oracle supportedTypes query := by
              simp [analyzeQuery, hb, htr, hm, hLc, hRc, optTruthy]
            rw [hred]
            exact simpleAnalyze_types_known ready oracle supportedTypes query
          · have hnt : nt ∈ supportedTypes :=
              matchNounsToTypes_subset (hRc ▸ List.mem_cons_self nt R2)
            rcases hte : tt.isEmpty with _ | _
            · rcases hne : nt.isEmpty with _ | _
              · simp only [analyzeQuery, hb, htr, hm, hLc, hRc, optTruthy,
                  List.head?_cons, hte, hne, Bool.not_false, Bool.and_self,
                  Bool.false_eq_true, if_false, if_true]
                refine ⟨?_, ?_, ?_, ?_, ?_⟩
                · intro t htm
                  rcases List.mem_cons.mp htm with rfl | htm
                  · exact htt
                  · rcases List.mem_cons.mp htm with rfl | htm
                    · exact hnt
                    · simp at htm
                · intro t h
                  cases h
                  exact htt
                · intro t h
                  cases h
                  exact hnt
                · intro h
                  simp at h
                · intro _
                  exact ⟨tt, nt, rfl, rfl, rfl⟩
              · have hred : analyzeQuery ready oracle supportedTypes query =
                    simpleAnalyze ready oracle supportedTypes query := by
                  simp [analyzeQuery, hb, htr, hm, hLc, hRc, optTruthy, hne]
                rw [hred]
                exact simpleAnalyze_types_known ready oracle supportedTypes query
            · have hred : analyzeQuery ready oracle supportedTypes query =
                  simpleAnalyze ready oracle supportedTypes query := by
                simp [analyzeQuery, hb, htr, hm, hLc, hRc, optTruthy, hte]
              rw [hred]
              exact simpleAnalyze_types_known ready oracle supportedTypes query
    · simp [analyzeQuery, hb, htr]
  · simp [analyzeQuery, hb]

/-- Witness for the amended C10: the membership invariant applied to the
duplicate-carrying proximity intent. -/
theorem analyzeQuery_types_known_witness : "park".toList ∈ stPark :=
  (analyzeQuery_types_known true oracleParksOnly stPark "parks near parks".toList).1
    "park".toList (by decide)

/-- C10 counterexample: a proximity query whose two sides resolve to the
same category produces a `types` list with a duplicate. -/
theorem analyzeQuery_duplicate_types :
    (analyzeQuery true oracleParksOnly stPark "parks near parks".toList).types =
      ["park".toList, "park".toList]
    ∧ ¬ (analyzeQuery true oracleParksOnly stPark
          "parks near parks".toList).types.Nodup := by
  decide

/-- C7: for a non-blank query with the analysis service ready, a timed-out
intent extraction makes `processQuery` return the `error` variant with the
timeout-specific user message (and the budget constant is 3000 ms), while
an extraction whose model calls fail is swallowed (empty noun/adjective
lists, hence an invalid analysis) and — for a query that is not a type-list
request — produces a `suggestions` result, not an error. -/
theorem processQuery_timeout_spec (dist : Location → Location → ℚ)
    (oracle : Str → Except Unit (Str × Str)) (st : DSState) (fetched : FetchOutcome)
    (query : Str) (hq : (trimStr query).isEmpty = false) :
    (processQuery dist true true oracle st fetched query = .error msgTimeout
      ∧ msgTimeout = "Query processing timed out. Please try again.".toList
      ∧ TIMEOUT_MS = 3000)
    ∧ ((∀ s, oracle s = .error ()) → isTypeRequestQ query = false →
        processQuery dist true false oracle st fetched query =
          .suggestions msgNoValidTypes (getDefaultSuggestions st)) := by
  constructor
  · exact ⟨by simp [processQuery, hq], rfl, rfl⟩
  · intro hOr htr
    have hext : ∀ s, extractNounsAndAdjectives true oracle s = ([], []) := by
      intro s
      simp [extractNounsAndAdjectives, hOr]
    have hsa : simpleAnalyze true oracle (getSupportedTypes st) query =
        ⟨false, [], false, false, none, none, none, none⟩ := by
      simp [simpleAnalyze, hext, matchNounsToTypes_nil, simpleAttrFilter]
    have hav : analyzeQuery true oracle (getSupportedTypes st) query =
        ⟨false, [], false, false, none, none, none, none⟩ := by
      rcases hm : proximityFirstMatch query with _ | ⟨m1, m2⟩
      · rw [← hsa]
        simp [analyzeQuery, hq, htr, hm]
      · simp [analyzeQuery, hq, htr, hm, hext, matchNounsToTypes_nil, optTruthy, hsa]
    simp [processQuery, hq, hav]

/-- Witness for C7 at a concrete query, oracle and state. -/
theorem processQuery_timeout_spec_witness :
    processQuery distThird true true oracleFails emptyState .fetchFail "hello".toList =
      .error msgTimeout
    ∧ processQuery distThird true false oracleFails emptyState .fetchFail "hello".toList =
      .suggestions msgNoValidTypes (getDefaultSuggestions emptyState) :=
  ⟨((processQuery_timeout_spec distThird oracleFails emptyState .fetchFail
      "hello".toList (by decide)).1).1,
   (processQuery_timeout_spec distThird oracleFails emptyState .fetchFail
      "hello".toList (by decide)).2 (fun _ => rfl) (by decide)⟩

end LocalLens
